import Mathlib

/-!
Verification development for the memebubbles aggregation-and-caching engine
(apps/api/src/index.ts). The definitions below are a shallow embedding of the
TypeScript source: JS numbers that hold timestamps, market caps and boost
amounts are modelled as integers, JS Map objects as insertion-ordered
association lists, and fallible asynchronous calls as Except values giving the
outcome of the awaited operation. String lowercasing is modelled character by
character (the source applies toLowerCase to ASCII chain ids and addresses).
-/

/-! ### Definitions -/

/-- Character-wise lowercasing, modelling the toLowerCase calls of the
source on its ASCII identity strings. -/
def lowerString (s : String) : String := String.mk (s.data.map Char.toLower)

/-- One entry of the links array of a listing record (boostLinkSchema). -/
structure BoostLink where
  url : String
  type : Option String
  label : Option String
deriving Repr, DecidableEq

/-- A normalized upstream listing record (DexscreenerTopBoost after
normalizeBoost: totalAmount always present, defaulted to 0). -/
structure Boost where
  url : String
  chainId : String
  tokenAddress : String
  description : Option String
  icon : Option String
  header : Option String
  openGraph : Option String
  links : Option (List BoostLink)
  totalAmount : Int
  amount : Option Int
deriving Repr, DecidableEq

/-- Partial enrichment metadata for one token (TokenMeta). -/
structure TokenMeta where
  name : Option String
  symbol : Option String
  imageUrl : Option String
  headerImageUrl : Option String
  marketCap : Option Int
  pairAddress : Option String
deriving Repr, DecidableEq

/-- The all-absent TokenMeta, modelling the empty object spread target in
the pairAddress injection step of the refresh functions. -/
def emptyTokenMeta : TokenMeta :=
  { name := none, symbol := none, imageUrl := none, headerImageUrl := none,
    marketCap := none, pairAddress := none }

/-- One output record (BubbleNode). -/
structure BubbleNode where
  id : String
  rank : Nat
  chainId : String
  tokenAddress : String
  label : String
  symbol : Option String
  name : Option String
  marketCap : Option Int
  pairAddress : Option String
  score : Int
  url : String
  description : Option String
  headerImageUrl : Option String
  iconUrl : Option String
  links : List BoostLink
deriving Repr, DecidableEq

/-- Cached snapshot state (CacheState / RecentCacheState, which have the same
shape in the source). -/
structure CacheState where
  updatedAtMs : Int
  data : List BubbleNode
deriving Repr, DecidableEq

/-- shortAddress from the source: addresses of length at most 12 are kept,
longer ones abbreviated to first four characters, an ellipsis, last four. -/
def shortAddress (address : String) : String :=
  if address.length ≤ 12 then address
  else address.take 4 ++ "…" ++ address.drop (address.length - 4)

/-- Models the JS truthiness fallback chain (a or-else b on strings): an
absent or empty string falls through to the fallback. -/
def orElseNonEmpty (o : Option String) (fallback : String) : String :=
  match o with
  | some s => if s = "" then fallback else s
  | none => fallback

/-- mapBoostToBubbleNode from the source, translated field by field. -/
def mapBoostToBubbleNode (boost : Boost) (rank : Nat) (meta : Option TokenMeta) :
    BubbleNode :=
  let id := boost.chainId ++ ":" ++ boost.tokenAddress
  let links := (boost.links.getD []).map (fun l =>
    { url := l.url, type := l.type,
      label := l.label <|>
        (if l.type = some "twitter" then some "X"
         else if l.type = some "telegram" then some "Telegram"
         else none) : BoostLink })
  let symbol := meta.bind (fun m => m.symbol)
  let name := meta.bind (fun m => m.name)
  let boostIconUrl :=
    match boost.icon with
    | some i => if i.startsWith "http" then some i else none
    | none => none
  { id := id
    rank := rank
    chainId := boost.chainId
    tokenAddress := boost.tokenAddress
    label := orElseNonEmpty name
      (orElseNonEmpty symbol (shortAddress boost.tokenAddress))
    symbol := symbol
    name := name
    marketCap := meta.bind (fun m => m.marketCap)
    pairAddress := meta.bind (fun m => m.pairAddress)
    score := boost.totalAmount
    url := boost.url
    description := boost.description
    headerImageUrl := (meta.bind (fun m => m.headerImageUrl)) <|> boost.header
    iconUrl := (meta.bind (fun m => m.imageUrl)) <|> boostIconUrl
    links := links }

/-- The case-normalized token identity key used by dedupeBoosts. -/
def dedupeKey (b : Boost) : String :=
  lowerString b.chainId ++ ":" ++ lowerString b.tokenAddress

/-- Loop body of dedupeBoosts: walk the concatenated list, skip already seen
identity keys, push new records, break once the output reaches the limit.
The source pushes the record first and only then checks the limit. -/
def dedupeBoostsGo (limit : Nat) : List Boost → List String → List Boost → List Boost
  | [], _seen, out => out.reverse
  | b :: rest, seen, out =>
    if dedupeKey b ∈ seen then dedupeBoostsGo limit rest seen out
    else if (b :: out).length ≥ limit then (b :: out).reverse
    else dedupeBoostsGo limit rest (dedupeKey b :: seen) (b :: out)

/-- dedupeBoosts from the source. -/
def dedupeBoosts (boosts : List Boost) (limit : Nat) : List Boost :=
  dedupeBoostsGo limit boosts [] []

/-- Modelled from the spec words of C2 for the refinement comparison:
plain first-occurrence dedup by identity key, with no limit cutoff. -/
def dedupFirstFrom : List Boost → List String → List Boost
  | [], _ => []
  | b :: rest, seen =>
    if dedupeKey b ∈ seen then dedupFirstFrom rest seen
    else b :: dedupFirstFrom rest (dedupeKey b :: seen)

/-- First-occurrence dedup of a whole list (spec-side definition). -/
def dedupFirst (boosts : List Boost) : List Boost := dedupFirstFrom boosts []

/-- A failed supplementary source contributes an empty list: models the
catch handler attached to each non-primary fetch in fetchCombinedBoosts. -/
def orEmptyList (r : Except String (List Boost)) : List Boost :=
  match r with
  | .ok l => l
  | .error _ => []

/-- fetchCombinedBoosts from the source: the primary top fetch has no catch
handler, so its failure rejects the whole aggregation with that error; the
three supplementary fetches are caught to empty lists; the four result lists
are concatenated in source order and deduped to the limit. -/
def fetchCombinedBoosts (topR latestR adsR profilesR : Except String (List Boost))
    (limit : Nat) : Except String (List Boost) :=
  match topR with
  | .error e => .error e
  | .ok top =>
    .ok (dedupeBoosts
      (top ++ orEmptyList latestR ++ orEmptyList adsR ++ orEmptyList profilesR)
      limit)

/-- A concrete listing record used in closed counterexamples and witnesses. -/
def mkBoost (chain addr url : String) (amount : Int) : Boost :=
  { url := url, chainId := chain, tokenAddress := addr, description := none,
    icon := none, header := none, openGraph := none, links := none,
    totalAmount := amount, amount := none }

/-- Scans a character list for the first scheme separator of an absolute URL
and returns what follows it. Returning none models the URL constructor
throwing on a string with no scheme separator. -/
def dropThroughSchemeSep : List Char → Option (List Char)
  | ':' :: '/' :: '/' :: rest => some rest
  | _ :: rest => dropThroughSchemeSep rest
  | [] => none

/-- Splits a character list on the slash character, keeping empty pieces, as
the JS split does on the pathname. -/
def splitOnSlash : List Char → List (List Char)
  | [] => [[]]
  | '/' :: rest => [] :: splitOnSlash rest
  | c :: rest =>
    match splitOnSlash rest with
    | [] => [[c]]
    | s :: ss => (c :: s) :: ss

/-- Pathname segments of an absolute URL of the shape scheme://host/path,
which is the shape of every listing URL the source parses; the first piece
after the separator is the host and is dropped, the rest are the pathname
segments that new URL(u).pathname.split produces. -/
def urlPathSegments (url : String) : Option (List String) :=
  match dropThroughSchemeSep url.data with
  | none => none
  | some rest =>
    match splitOnSlash rest with
    | [] => some []
    | _host :: segs => some (segs.map (fun l => String.mk l))

/-- parsePairAddressFromUrl from the source: take the non-empty pathname
segments, require at least two, require the first to match the chain id
case-insensitively, and return the second as the pair address. -/
def parsePairAddressFromUrl (url chainId : String) : Option String :=
  match urlPathSegments url with
  | none => none
  | some segs =>
    match segs.filter (fun s => s ≠ "") with
    | chain :: pairAddress :: _ =>
      if lowerString chain = lowerString chainId then some pairAddress else none
    | _ => none

/-- TokenKey from the source: pair-scoped when the listing URL yields a pair
address, token-scoped otherwise. -/
inductive TokenKey where
  | pair (chainId pairAddress : String)
  | token (chainId tokenAddress : String)
deriving Repr, DecidableEq

/-- tokenKeyToString from the source. -/
def tokenKeyToString : TokenKey → String
  | .pair c p => lowerString c ++ ":" ++ lowerString p
  | .token c t => lowerString c ++ ":token:" ++ lowerString t

/-- boostToTokenKey from the source. -/
def boostToTokenKey (b : Boost) : TokenKey :=
  match parsePairAddressFromUrl b.url b.chainId with
  | some p => .pair b.chainId p
  | none => .token b.chainId b.tokenAddress

/-- pairKeyToString from the source. -/
def pairKeyToString (chainId pairAddress : String) : String :=
  lowerString chainId ++ ":" ++ lowerString pairAddress

/-- Map.get on a metadata map modelled as an insertion-ordered association
list with unique keys. -/
def lookupMeta (m : List (String × TokenMeta)) (k : String) : Option TokenMeta :=
  (m.find? (fun p => p.1 == k)).map (fun p => p.2)

/-- Map.set on a metadata map: replace the value of an existing key in
place, or append a fresh binding. -/
def setMeta (m : List (String × TokenMeta)) (k : String) (v : TokenMeta) :
    List (String × TokenMeta) :=
  if m.any (fun p => p.1 == k) then
    m.map (fun p => if p.1 == k then (k, v) else p)
  else m ++ [(k, v)]

/-- One iteration of the pairAddress injection loop of refreshTopBoostBubbles:
when the listing URL yields a pair address, the token-level record for the
lowercased address is overlaid with that pairAddress (spreading the existing
record, or an empty one, and overriding the pairAddress field). -/
def injectPairAddrStep (m : List (String × TokenMeta)) (b : Boost) :
    List (String × TokenMeta) :=
  match parsePairAddressFromUrl b.url b.chainId with
  | some p =>
    setMeta m (lowerString b.tokenAddress)
      { (lookupMeta m (lowerString b.tokenAddress)).getD emptyTokenMeta with
          pairAddress := some p }
  | none => m

/-- The whole injection loop over the truncated listing. -/
def injectPairAddr (m : List (String × TokenMeta)) (top : List Boost) :
    List (String × TokenMeta) :=
  top.foldl injectPairAddrStep m

/-- The node-building map of refreshTopBoostBubbles: record at position idx
gets rank idx+1 and, as metadata, the pair-level record when one resolved
for the lowercased token address, otherwise the token-level record. -/
def refreshNodesGo (pairMetaMap tokenMetaMap : List (String × TokenMeta)) :
    List Boost → Nat → List BubbleNode
  | [], _ => []
  | b :: rest, idx =>
    mapBoostToBubbleNode b (idx + 1)
      ((lookupMeta pairMetaMap (lowerString b.tokenAddress)) <|>
        (lookupMeta tokenMetaMap (lowerString b.tokenAddress))) ::
      refreshNodesGo pairMetaMap tokenMetaMap rest (idx + 1)

/-- Node list produced by refreshTopBoostBubbles from the truncated listing,
the fetched token-level map (after pairAddress injection) and the pair-level
map. -/
def refreshTopNodes (top : List Boost)
    (tokenMetaFetched pairMetaMap : List (String × TokenMeta)) : List BubbleNode :=
  refreshNodesGo pairMetaMap (injectPairAddr tokenMetaFetched top) top 0

/-- refreshTopBoostBubbles, modelled on the awaited results: the combined
listing fetch may fail (and then the refresh fails with exactly that error);
the two enrichment maps are given post-catch, since the source coerces their
failures to empty maps. -/
def refreshTopBoostBubblesModel (now : Int)
    (topR latestR adsR profilesR : Except String (List Boost))
    (tokenMetaFetched pairMetaMap : List (String × TokenMeta)) (limit : Nat) :
    Except String CacheState :=
  match fetchCombinedBoosts topR latestR adsR profilesR limit with
  | .error e => .error e
  | .ok boosts =>
    .ok { updatedAtMs := now,
          data := refreshTopNodes (boosts.take limit) tokenMetaFetched pairMetaMap }

/-- Concrete inputs for the enrichment-merge counterexample: the token-level
pass resolves only the symbol, the pair-level pass resolves only the market
cap, for the same identity. -/
def cxMergeBoost : Boost := mkBoost "sol" "tok" "https://example.com/only" 1

/-- Token-level (Pass 1) map resolving only symbol ABC. -/
def cxMergeTokenMap : List (String × TokenMeta) :=
  [("tok", { emptyTokenMeta with symbol := some "ABC" })]

/-- Pair-level (Pass 2) map resolving only marketCap 1000000. -/
def cxMergePairMap : List (String × TokenMeta) :=
  [("tok", { emptyTokenMeta with marketCap := some 1000000 })]

/-- RECENT_CAPACITY from the source. -/
def RECENT_CAPACITY : Nat := 100

/-- RECENT_TTL_MS from the source: six hours in milliseconds. -/
def RECENT_TTL_MS : Int := 6 * 60 * 60 * 1000

/-- RecentEntry from the source. -/
structure RecentEntry where
  key : String
  boost : Boost
  lastSeenAtMs : Int
  meta : Option TokenMeta
deriving Repr, DecidableEq

/-- Registry keys in insertion order. -/
def registryKeys (reg : List RecentEntry) : List String :=
  reg.map (fun e => e.key)

/-- Map.set on the registry modelled as an insertion-ordered list keyed by
the entry key: an existing key is replaced in place, a fresh one appended. -/
def registrySet (reg : List RecentEntry) (e : RecentEntry) : List RecentEntry :=
  if reg.any (fun x => x.key == e.key) then
    reg.map (fun x => if x.key == e.key then e else x)
  else reg ++ [e]

/-- The upsert step of refreshRecentBoostBubbles: key the fetched record,
carry over the previous meta of the same key, stamp lastSeenAt with now. -/
def upsertBoost (now : Int) (reg : List RecentEntry) (b : Boost) : List RecentEntry :=
  registrySet reg
    { key := tokenKeyToString (boostToTokenKey b), boost := b, lastSeenAtMs := now,
      meta := (reg.find? (fun x => x.key == tokenKeyToString (boostToTokenKey b))).bind
        (fun x => x.meta) }

/-- The Pass-2 lookup of the recent refresh's meta overlay: the pair-level
record under the entry's pair key, defined only for pair-scoped entries (the
source guards the pairMetaByPairKey lookup on the entry's token key being
pair-kind). -/
def recentPairMeta (pairMetaByPairKey : List (String × TokenMeta))
    (e : RecentEntry) : Option TokenMeta :=
  match boostToTokenKey e.boost with
  | .pair c p => lookupMeta pairMetaByPairKey (pairKeyToString c p)
  | .token _ _ => none

/-- The per-entry meta overlay of the TTL sweep loop: pair-level record by
the entry's pair key first, else token-level record by address, else the
entry's existing meta from an earlier cycle; only a resolved record is
written back, as a whole record. -/
def updateEntryMeta (tokenMetaMap pairMetaByPairKey : List (String × TokenMeta))
    (e : RecentEntry) : RecentEntry :=
  match recentPairMeta pairMetaByPairKey e <|>
      lookupMeta tokenMetaMap (lowerString e.boost.tokenAddress) <|> e.meta with
  | some m => { e with meta := some m }
  | none => e

/-- The TTL sweep of refreshRecentBoostBubbles: delete every entry whose age
exceeds the retention TTL, overlay the meta of the survivors. -/
def ttlSweep (now : Int) (tm pm : List (String × TokenMeta)) (reg : List RecentEntry) :
    List RecentEntry :=
  (reg.filter (fun e => ! decide (now - e.lastSeenAtMs > RECENT_TTL_MS))).map
    (updateEntryMeta tm pm)

/-- Stable insertion of an entry into a recency-descending list: the entry
goes before the first element it is at least as recent as, so that elements
of equal recency keep their original relative order. -/
def insertByDesc (e : RecentEntry) : List RecentEntry → List RecentEntry
  | [] => [e]
  | x :: xs =>
    if e.lastSeenAtMs ≥ x.lastSeenAtMs then e :: x :: xs
    else x :: insertByDesc e xs

/-- The stable descending sort by lastSeenAt of the source (the JS sort with
comparator subtracting lastSeenAt values is stable), modelled as a stable
insertion sort, which produces the same list. -/
def sortByLastSeenDesc (reg : List RecentEntry) : List RecentEntry :=
  reg.foldr insertByDesc []

/-- The capacity trim of refreshRecentBoostBubbles: when over capacity, keep
only the keys of the top-capacity entries by recency, preserving registry
insertion order. -/
def capacityTrim (reg : List RecentEntry) : List RecentEntry :=
  if reg.length > RECENT_CAPACITY then
    reg.filter (fun e =>
      (((sortByLastSeenDesc reg).take RECENT_CAPACITY).map (fun x => x.key)).contains
        e.key)
  else reg

/-- The registry transformation of one full refreshRecentBoostBubbles run:
upsert every fetched record, sweep by TTL with meta overlay, trim to
capacity. -/
def refreshRecentRegistry (reg : List RecentEntry) (now : Int) (boosts : List Boost)
    (tm pm : List (String × TokenMeta)) : List RecentEntry :=
  capacityTrim (ttlSweep now tm pm (boosts.foldl (upsertBoost now) reg))

/-- The eviction-only step named by the claim: TTL eviction plus capacity
trimming, with no upsert and no meta overlay. -/
def evictPass (now : Int) (reg : List RecentEntry) : List RecentEntry :=
  capacityTrim (reg.filter (fun e => ! decide (now - e.lastSeenAtMs > RECENT_TTL_MS)))

/-- mapBoostToRecentBubbleNode from the source: the generic node with the
id overridden by the registry key. -/
def mapBoostToRecentBubbleNode (e : RecentEntry) (rank : Nat) : BubbleNode :=
  { mapBoostToBubbleNode e.boost rank e.meta with id := e.key, rank := rank }

/-- The ranked node map over the recency-sorted registry. -/
def recentNodesGo : List RecentEntry → Nat → List BubbleNode
  | [], _ => []
  | e :: rest, idx =>
    mapBoostToRecentBubbleNode e (idx + 1) :: recentNodesGo rest (idx + 1)

/-- Node list produced by refreshRecentBoostBubbles from the final registry. -/
def refreshRecentNodes (reg : List RecentEntry) : List BubbleNode :=
  recentNodesGo (sortByLastSeenDesc reg) 0

/-- Concrete old registry entry for the duplicate-identity counterexample:
token (c, t) first seen through a listing URL that yields no pair address,
hence registered under its token-scoped key. -/
def cxDupOldEntry : RecentEntry :=
  { key := "c:token:t", boost := mkBoost "c" "t" "https://example.com/x" 0,
    lastSeenAtMs := 0, meta := none }

/-- The same token (c, t) fetched again through a pair-style listing URL,
hence keyed under the pair-scoped key. -/
def cxDupBoostNew : Boost := mkBoost "c" "t" "https://d/c/p2" 0

/-- Pair-scoped registry entry for the recent-cache merge counterexample. -/
def cxMergeEntry : RecentEntry :=
  { key := "c:p2", boost := cxDupBoostNew, lastSeenAtMs := 0, meta := none }

/-- Registry entry holding metadata from an earlier cycle, used to exercise
the recent merge fallback to the entry's existing meta. -/
def cxMergePrevEntry : RecentEntry :=
  { key := "c:token:t", boost := mkBoost "c" "t" "https://example.com/x" 0,
    lastSeenAtMs := 0, meta := some { emptyTokenMeta with symbol := some "ABC" } }

/-- Recent-refresh token-level (Pass 1) map resolving only symbol ABC for
token address t. -/
def cxMergeRecentTokenMap : List (String × TokenMeta) :=
  [("t", { emptyTokenMeta with symbol := some "ABC" })]

/-- Recent-refresh pair-level (Pass 2) map resolving only marketCap 1000000
under the pair key of the entry. -/
def cxMergeRecentPairMap : List (String × TokenMeta) :=
  [("c:p2", { emptyTokenMeta with marketCap := some 1000000 })]

/-- Concrete successful top-cache snapshot used in witnesses. -/
def cxTopState : CacheState :=
  { updatedAtMs := 0, data := refreshTopNodes [cxMergeBoost] [] [] }

/-- A cached snapshot holding no records, used to exercise the record-count
freshness criterion. -/
def cxEmptyState : CacheState := { updatedAtMs := 0, data := [] }

/-- getTopBoostBubbles, modelled on the decision one call makes: given the
clock, the cached state and the outcome of the refresh the caller would
await (joining an already in-flight one and starting a new one resolve
identically for the caller), return the served state with its staleness
flag, or propagate the awaited refresh error. The fresh and the stale
branches of the source both also require the cached record count to reach
the requested limit. -/
def getTopBoostBubblesModel (now : Int) (latest : Option CacheState)
    (refreshResult : Except String CacheState) (limit : Nat)
    (freshTtlMs staleTtlMs : Int) : Except String (CacheState × Bool) :=
  match latest with
  | some l =>
    if now - l.updatedAtMs ≤ freshTtlMs ∧ l.data.length ≥ limit then .ok (l, false)
    else if now - l.updatedAtMs ≤ staleTtlMs ∧ l.data.length ≥ limit then .ok (l, true)
    else refreshResult.map (fun st => (st, false))
  | none => refreshResult.map (fun st => (st, false))

/-- getRecentBoostBubbles, modelled the same way: it takes no limit and its
branch conditions check only the age of the cached state. -/
def getRecentBoostBubblesModel (now : Int) (latest : Option CacheState)
    (refreshResult : Except String CacheState)
    (freshTtlMs staleTtlMs : Int) : Except String (CacheState × Bool) :=
  match latest with
  | some l =>
    if now - l.updatedAtMs ≤ freshTtlMs then .ok (l, false)
    else if now - l.updatedAtMs ≤ staleTtlMs then .ok (l, true)
    else refreshResult.map (fun st => (st, false))
  | none => refreshResult.map (fun st => (st, false))

/-- Whether the top-cache call serves the cached state without waiting on a
refresh: the fresh or the stale branch condition holds. -/
def topServesCached (now : Int) (latest : Option CacheState) (limit : Nat)
    (freshTtlMs staleTtlMs : Int) : Bool :=
  match latest with
  | some l =>
    (decide (now - l.updatedAtMs ≤ freshTtlMs) && decide (l.data.length ≥ limit)) ||
      (decide (now - l.updatedAtMs ≤ staleTtlMs) && decide (l.data.length ≥ limit))
  | none => false

/-- Whether the recent-cache call serves the cached state without waiting. -/
def recentServesCached (now : Int) (latest : Option CacheState)
    (freshTtlMs staleTtlMs : Int) : Bool :=
  match latest with
  | some l =>
    decide (now - l.updatedAtMs ≤ freshTtlMs) ||
      decide (now - l.updatedAtMs ≤ staleTtlMs)
  | none => false

/-- The top-boosts endpoint payload data: the served snapshot truncated to
its first limit records, under the production TTLs of 30s and 120s. -/
def topBoostsEndpointData (now : Int) (latest : Option CacheState)
    (refreshResult : Except String CacheState) (limit : Nat) :
    Except String (List BubbleNode) :=
  (getTopBoostBubblesModel now latest refreshResult limit 30000 120000).map
    (fun r => r.1.data.take limit)

/-- The recent endpoint payload data, truncated the same way. -/
def recentEndpointData (now : Int) (latest : Option CacheState)
    (refreshResult : Except String CacheState) (limit : Nat) :
    Except String (List BubbleNode) :=
  (getRecentBoostBubblesModel now latest refreshResult 30000 120000).map
    (fun r => r.1.data.take limit)

/-- Outcome of one attempt of an upstream fetch: parsed success, transient
network error (timeout, or a connection-level failure with code ECONNRESET,
ETIMEDOUT, ENOTFOUND or EAI_AGAIN, the only codes isRetryableNetworkError
accepts), or non-retryable failure (non-2xx status, JSON parse failure or
schema mismatch, none of which carry such a code). -/
inductive AttemptOutcome (α : Type) where
  | success (v : α)
  | transientError
  | fatalError
deriving Repr, DecidableEq

/-- Trace of one retry loop run: the final result, the attempt number the
loop stopped at, and the backoff delays slept between attempts. -/
structure RetryTrace (α : Type) where
  result : Except String α
  attemptsMade : Nat
  delaysMs : List Nat

/-- The retry loop shared by fetchDexscreenerList and the token-batch fetch,
attempt numbers running from 1. A failed attempt is retried only when the
failure is transient and the ceiling is not reached, after a backoff of
200 * 2 ^ (attempt - 1) milliseconds; a fatal failure or a transient failure
at the ceiling stops the loop with an error. The remaining parameter is the
number of attempts still allowed beyond the current one, so the source
condition attempt >= maxAttempts is remaining = 0. -/
def retryLoopGo {α : Type} (outcome : Nat → AttemptOutcome α) :
    Nat → Nat → RetryTrace α
  | attempt, remaining =>
    match outcome attempt with
    | .success v => { result := .ok v, attemptsMade := attempt, delaysMs := [] }
    | .fatalError =>
      { result := .error "request failed", attemptsMade := attempt, delaysMs := [] }
    | .transientError =>
      match remaining with
      | 0 =>
        { result := .error "request failed", attemptsMade := attempt, delaysMs := [] }
      | r + 1 =>
        { result := (retryLoopGo outcome (attempt + 1) r).result,
          attemptsMade := (retryLoopGo outcome (attempt + 1) r).attemptsMade,
          delaysMs := 200 * 2 ^ (attempt - 1) ::
            (retryLoopGo outcome (attempt + 1) r).delaysMs }

/-- A retry loop with the given attempt ceiling, started at attempt 1. -/
def retryLoop {α : Type} (outcome : Nat → AttemptOutcome α) (maxAttempts : Nat) :
    RetryTrace α :=
  retryLoopGo outcome 1 (maxAttempts - 1)

/-- fetchDexscreenerList with its default ceiling of 3 attempts, used by all
four listing fetches including the primary top fetch. -/
def fetchDexscreenerListRetry {α : Type} (outcome : Nat → AttemptOutcome α) :
    RetryTrace α :=
  retryLoop outcome 3

/-- The token-level batch fetch of fetchTokenMetaMap with its ceiling of 2
attempts. -/
def fetchBatchRetry {α : Type} (outcome : Nat → AttemptOutcome α) : RetryTrace α :=
  retryLoop outcome 2

/-- One pair-level lookup of fetchPairsMetaMap / fetchPairsMetaByPairKey:
a single attempt whose failure of any kind is caught to null; the second
component counts the attempts made. -/
def fetchPairOnce {α : Type} (outcome : Nat → AttemptOutcome α) : Option α × Nat :=
  match outcome 1 with
  | .success v => (some v, 1)
  | .transientError => (none, 1)
  | .fatalError => (none, 1)

/-- State of the single-flight machinery of one cache: the stored in-flight
promise handle (inFlight field of the cache object), the identities of
refresh operations started and not yet settled, and a counter allocating
identities to started refreshes. -/
structure FlightState where
  inFlight : Option Nat
  running : List Nat
  nextId : Nat
deriving Repr, DecidableEq

/-- The atomic events of the event loop that touch the in-flight handle.
Each models a synchronous section of the source with no await between its
check of the handle and its update: a caller reaching the expired path of
the get function, a scheduler tick calling ensureRefreshInBackground, and
the settling of the in-flight refresh whose finally clears the handle. -/
inductive FlightEvent where
  | getExpired
  | backgroundTick
  | complete
deriving Repr, DecidableEq

/-- One atomic event; the second component is the refresh identity a caller
awaits, for the getExpired event. -/
def flightStep (st : FlightState) : FlightEvent → FlightState × Option Nat
  | .getExpired =>
    match st.inFlight with
    | some r => (st, some r)
    | none =>
      ({ inFlight := some st.nextId, running := st.nextId :: st.running,
         nextId := st.nextId + 1 }, some st.nextId)
  | .backgroundTick =>
    match st.inFlight with
    | some _ => (st, none)
    | none =>
      ({ inFlight := some st.nextId, running := st.nextId :: st.running,
         nextId := st.nextId + 1 }, none)
  | .complete =>
    match st.inFlight with
    | some r =>
      ({ inFlight := none, running := st.running.erase r, nextId := st.nextId }, none)
    | none => (st, none)

/-- The cache starts with no cached promise and nothing running. -/
def flightInit : FlightState := { inFlight := none, running := [], nextId := 0 }

/-- Run a list of events, collecting the awaited refresh identity of each. -/
def flightRun (st : FlightState) : List FlightEvent → FlightState × List (Option Nat)
  | [] => (st, [])
  | ev :: evs =>
    ((flightRun (flightStep st ev).1 evs).1,
      (flightStep st ev).2 :: (flightRun (flightStep st ev).1 evs).2)

/-- The single-flight invariant: the refreshes still running are exactly the
one held by the in-flight handle, if any. -/
def flightInv (st : FlightState) : Prop :=
  st.running = st.inFlight.toList

/-- A flight state with one refresh (identity 0) in flight, for witnesses. -/
def cxBusyState : FlightState := { inFlight := some 0, running := [0], nextId := 1 }

/-! ### Helper lemmas -/

theorem dedupeBoostsGo_eq (limit : Nat) :
    ∀ (rest : List Boost) (seen : List String) (out : List Boost),
      out.length < limit →
      dedupeBoostsGo limit rest seen out =
        out.reverse ++ (dedupFirstFrom rest seen).take (limit - out.length) := by
  intro rest
  induction rest with
  | nil =>
    intro seen out _h
    simp [dedupeBoostsGo, dedupFirstFrom]
  | cons b rest ih =>
    intro seen out h
    by_cases hk : dedupeKey b ∈ seen
    · simp [dedupeBoostsGo, dedupFirstFrom, hk, ih seen out h]
    · have hdf : dedupFirstFrom (b :: rest) seen =
          b :: dedupFirstFrom rest (dedupeKey b :: seen) := by
        simp [dedupFirstFrom, hk]
      by_cases hfull : (b :: out).length ≥ limit
      · have hgo : dedupeBoostsGo limit (b :: rest) seen out = (b :: out).reverse := by
          simp only [List.length_cons, ge_iff_le] at hfull
          simp [dedupeBoostsGo, hk, hfull]
        have hlim : limit - out.length = 1 := by
          simp only [List.length_cons] at hfull
          omega
        rw [hgo, hdf, hlim]
        simp
      · have hgo : dedupeBoostsGo limit (b :: rest) seen out =
            dedupeBoostsGo limit rest (dedupeKey b :: seen) (b :: out) := by
          have hfb : ¬ (limit ≤ out.length + 1) := by
            simp only [List.length_cons, ge_iff_le] at hfull
            exact hfull
          simp [dedupeBoostsGo, hk, hfb]
        have h2 : (b :: out).length < limit := by omega
        have hlim : limit - out.length = (limit - (b :: out).length) + 1 := by
          simp only [List.length_cons]
          simp only [List.length_cons] at hfull
          omega
        rw [hgo, hdf, hlim, ih (dedupeKey b :: seen) (b :: out) h2]
        simp

theorem dedupFirstFrom_sublist :
    ∀ (l : List Boost) (seen : List String), (dedupFirstFrom l seen).Sublist l := by
  intro l
  induction l with
  | nil => intro seen; simp [dedupFirstFrom]
  | cons b rest ih =>
    intro seen
    by_cases hk : dedupeKey b ∈ seen
    · simp only [dedupFirstFrom, if_pos hk]
      exact (ih seen).cons b
    · simp only [dedupFirstFrom, if_neg hk]
      exact (ih (dedupeKey b :: seen)).cons₂ b

theorem dedupFirstFrom_keys_nodup :
    ∀ (l : List Boost) (seen : List String),
      ((dedupFirstFrom l seen).map dedupeKey).Nodup ∧
        ∀ k ∈ (dedupFirstFrom l seen).map dedupeKey, k ∉ seen := by
  intro l
  induction l with
  | nil => intro seen; simp [dedupFirstFrom]
  | cons b rest ih =>
    intro seen
    by_cases hk : dedupeKey b ∈ seen
    · simpa [dedupFirstFrom, hk] using ih seen
    · obtain ⟨hn, hf⟩ := ih (dedupeKey b :: seen)
      constructor
      · simp only [dedupFirstFrom, if_neg hk, List.map_cons, List.nodup_cons]
        refine ⟨fun hmem => ?_, hn⟩
        exact (hf _ hmem) (by simp)
      · intro k hkmem
        simp only [dedupFirstFrom, if_neg hk, List.map_cons, List.mem_cons] at hkmem
        rcases hkmem with h1 | h2
        · rw [h1]; exact hk
        · intro hks
          exact (hf _ h2) (by simp [hks])

theorem refreshNodesGo_get (pm tm : List (String × TokenMeta)) :
    ∀ (l : List Boost) (k i : Nat),
      (refreshNodesGo pm tm l k).get? i = (l.get? i).map (fun b =>
        mapBoostToBubbleNode b (k + i + 1)
          ((lookupMeta pm (lowerString b.tokenAddress)) <|>
            (lookupMeta tm (lowerString b.tokenAddress)))) := by
  intro l
  induction l with
  | nil => intro k i; simp [refreshNodesGo]
  | cons b rest ih =>
    intro k i
    cases i with
    | zero => simp [refreshNodesGo]
    | succ j =>
      have harith : k + 1 + j + 1 = k + (j + 1) + 1 := by omega
      simp only [refreshNodesGo, List.get?_cons_succ]
      rw [ih (k + 1) j, harith]

theorem refreshNodesGo_ranks (pm tm : List (String × TokenMeta)) :
    ∀ (l : List Boost) (k : Nat),
      (refreshNodesGo pm tm l k).map (fun n => n.rank) =
        List.range' (k + 1) l.length := by
  intro l
  induction l with
  | nil => intro k; simp [refreshNodesGo]
  | cons b rest ih =>
    intro k
    simp [refreshNodesGo, mapBoostToBubbleNode, ih (k + 1), List.range'_succ]

theorem refreshNodesGo_idkeys (pm tm : List (String × TokenMeta)) :
    ∀ (l : List Boost) (k : Nat),
      (refreshNodesGo pm tm l k).map
          (fun n => lowerString n.chainId ++ ":" ++ lowerString n.tokenAddress) =
        l.map dedupeKey := by
  intro l
  induction l with
  | nil => intro k; simp [refreshNodesGo]
  | cons b rest ih =>
    intro k
    simp [refreshNodesGo, mapBoostToBubbleNode, ih (k + 1), dedupeKey]

theorem dedupeBoosts_keys_nodup (bs : List Boost) (L : Nat) (hL : 1 ≤ L) :
    ((dedupeBoosts bs L).map dedupeKey).Nodup := by
  have key : dedupeBoosts bs L = (dedupFirst bs).take L := by
    have h0 : (([] : List Boost)).length < L := by simpa using hL
    simpa [dedupeBoosts, dedupFirst] using dedupeBoostsGo_eq L bs [] [] h0
  rw [key]
  exact ((List.take_sublist L (dedupFirst bs)).map dedupeKey).nodup
    (dedupFirstFrom_keys_nodup bs []).1

/-! ### Claim C2 -/

/-- C2 (amended: the stated properties hold for every requested limit of at
least 1; at limit 0 the loop still emits one record because the source checks
the count only after pushing). For all per-source result lists and every
limit L of at least 1, the aggregation equals the first-occurrence dedup of
the priority-ordered concatenation truncated to L, the output identity keys
are pairwise distinct, the output length is at most L, and the output is a
subsequence of the concatenation. -/
theorem claim_C2_amended (top latestB ads profiles : List Boost) (L : Nat)
    (hL : 1 ≤ L) :
    fetchCombinedBoosts (.ok top) (.ok latestB) (.ok ads) (.ok profiles) L =
        .ok ((dedupFirst (top ++ latestB ++ ads ++ profiles)).take L) ∧
      ((dedupeBoosts (top ++ latestB ++ ads ++ profiles) L).map dedupeKey).Nodup ∧
      (dedupeBoosts (top ++ latestB ++ ads ++ profiles) L).length ≤ L ∧
      (dedupeBoosts (top ++ latestB ++ ads ++ profiles) L).Sublist
        (top ++ latestB ++ ads ++ profiles) := by
  have key : dedupeBoosts (top ++ latestB ++ ads ++ profiles) L =
      (dedupFirst (top ++ latestB ++ ads ++ profiles)).take L := by
    have h0 : (([] : List Boost)).length < L := by simpa using hL
    simpa [dedupeBoosts, dedupFirst] using
      dedupeBoostsGo_eq L (top ++ latestB ++ ads ++ profiles) [] [] h0
  have htake : ((dedupFirst (top ++ latestB ++ ads ++ profiles)).take L).Sublist
      (dedupFirst (top ++ latestB ++ ads ++ profiles)) :=
    List.take_sublist L (dedupFirst (top ++ latestB ++ ads ++ profiles))
  refine ⟨?_, ?_, ?_, ?_⟩
  · simp only [fetchCombinedBoosts, orEmptyList]
    rw [key]
  · rw [key]
    exact (htake.map dedupeKey).nodup
      (dedupFirstFrom_keys_nodup (top ++ latestB ++ ads ++ profiles) []).1
  · rw [key]
    exact List.length_take_le L (dedupFirst (top ++ latestB ++ ads ++ profiles))
  · rw [key]
    exact htake.trans (dedupFirstFrom_sublist (top ++ latestB ++ ads ++ profiles) [])

/-- C2 counterexample for the claim as frozen (which quantifies over every
limit L): at limit 0 the aggregated output still holds one record, because
the source checks the limit only after pushing, so the output length is not
at most L. -/
theorem claim_C2_counterexample :
    ¬ ((dedupeBoosts [mkBoost "sol" "tok1" "https://dexscreener.com/sol/p1" 1] 0).length ≤ 0) := by
  decide

/-- Witness for C2: the theorem applied to the concrete scenario of the
claim, five primary records plus three supplementary records of which two
duplicate primary identities, at limit 30; the output then has exactly six
records and each duplicated identity keeps the primary record. -/
theorem claim_C2_witness :
    (1 ≤ 30 ∧
      (dedupeBoosts
        ([mkBoost "sol" "a1" "https://d/sol/x1" 10, mkBoost "sol" "a2" "https://d/sol/x2" 9,
          mkBoost "sol" "a3" "https://d/sol/x3" 8, mkBoost "sol" "a4" "https://d/sol/x4" 7,
          mkBoost "sol" "a5" "https://d/sol/x5" 6] ++
         [mkBoost "sol" "A1" "https://d/sol/y1" 0, mkBoost "sol" "A2" "https://d/sol/y2" 0,
          mkBoost "sol" "b6" "https://d/sol/y3" 0] ++ [] ++ []) 30).length ≤ 30) ∧
    (dedupeBoosts
        ([mkBoost "sol" "a1" "https://d/sol/x1" 10, mkBoost "sol" "a2" "https://d/sol/x2" 9,
          mkBoost "sol" "a3" "https://d/sol/x3" 8, mkBoost "sol" "a4" "https://d/sol/x4" 7,
          mkBoost "sol" "a5" "https://d/sol/x5" 6] ++
         [mkBoost "sol" "A1" "https://d/sol/y1" 0, mkBoost "sol" "A2" "https://d/sol/y2" 0,
          mkBoost "sol" "b6" "https://d/sol/y3" 0] ++ [] ++ []) 30) =
      [mkBoost "sol" "a1" "https://d/sol/x1" 10, mkBoost "sol" "a2" "https://d/sol/x2" 9,
       mkBoost "sol" "a3" "https://d/sol/x3" 8, mkBoost "sol" "a4" "https://d/sol/x4" 7,
       mkBoost "sol" "a5" "https://d/sol/x5" 6, mkBoost "sol" "b6" "https://d/sol/y3" 0] := by
  constructor
  · exact ⟨by decide,
      (claim_C2_amended
        [mkBoost "sol" "a1" "https://d/sol/x1" 10, mkBoost "sol" "a2" "https://d/sol/x2" 9,
         mkBoost "sol" "a3" "https://d/sol/x3" 8, mkBoost "sol" "a4" "https://d/sol/x4" 7,
         mkBoost "sol" "a5" "https://d/sol/x5" 6]
        [mkBoost "sol" "A1" "https://d/sol/y1" 0, mkBoost "sol" "A2" "https://d/sol/y2" 0,
         mkBoost "sol" "b6" "https://d/sol/y3" 0]
        [] [] 30 (by decide)).2.2.1⟩
  · decide

/-! ### Claim C1 -/

/-- C1 counterexample, in both refresh functions: with Pass 1 resolving only
symbol ABC and Pass 2 resolving only marketCap 1000000 for the same
identity, the produced record carries no symbol at all — the top refresh
selects the whole Pass-2 record by token address, and the recent refresh
selects the whole Pass-2 record by the entry's pair key — instead of
overlaying field by field as the claim states. -/
theorem claim_C1_counterexample :
    (refreshTopNodes [cxMergeBoost] cxMergeTokenMap cxMergePairMap).map
        (fun n => (n.symbol, n.marketCap)) = [(none, some 1000000)] ∧
    ¬ ((refreshTopNodes [cxMergeBoost] cxMergeTokenMap cxMergePairMap).map
        (fun n => (n.symbol, n.marketCap)) = [(some "ABC", some 1000000)]) ∧
    (refreshRecentNodes (refreshRecentRegistry [] 0 [cxDupBoostNew]
          cxMergeRecentTokenMap cxMergeRecentPairMap)).map
        (fun n => (n.symbol, n.marketCap)) = [(none, some 1000000)] ∧
    ¬ ((refreshRecentNodes (refreshRecentRegistry [] 0 [cxDupBoostNew]
          cxMergeRecentTokenMap cxMergeRecentPairMap)).map
        (fun n => (n.symbol, n.marketCap)) = [(some "ABC", some 1000000)]) := by
  exact ⟨by decide, by decide, by decide, by decide⟩

/-- C1 (amended): the final metadata of an output record is always one whole
record, never a field-by-field overlay, so a field present in a
lower-priority record but absent in the selected record is lost. In the top
refresh it is the Pass-2 (pair-level) record looked up by lowercased token
address whenever one resolved — every field, including fields absent in
Pass 2 and present in Pass 1, comes from the Pass-2 record — and otherwise
the Pass-1 (token-level, pairAddress-injected) record. In the recent
refresh, per registry entry, it is the Pass-2 record looked up by the
entry's pair key when the entry is pair-scoped and that lookup resolved,
else the Pass-1 record by token address, else the entry's metadata retained
from an earlier cycle; the recent output record carries the entry's
metadata fields verbatim. -/
theorem claim_C1_amended (top : List Boost) (tm pm : List (String × TokenMeta))
    (i : Nat) (b : Boost) (e : RecentEntry)
    (rtm rpm : List (String × TokenMeta)) (r : Nat)
    (hb : top.get? i = some b) :
    (∀ m2, lookupMeta pm (lowerString b.tokenAddress) = some m2 →
      ((refreshTopNodes top tm pm).get? i).map (fun n => (n.symbol, n.marketCap)) =
        some (m2.symbol, m2.marketCap)) ∧
    (lookupMeta pm (lowerString b.tokenAddress) = none →
      ((refreshTopNodes top tm pm).get? i).map (fun n => (n.symbol, n.marketCap)) =
        some
          ((lookupMeta (injectPairAddr tm top) (lowerString b.tokenAddress)).bind
              (fun m => m.symbol),
            (lookupMeta (injectPairAddr tm top) (lowerString b.tokenAddress)).bind
              (fun m => m.marketCap))) ∧
    (∀ m2, recentPairMeta rpm e = some m2 →
      (updateEntryMeta rtm rpm e).meta = some m2) ∧
    (recentPairMeta rpm e = none →
      ∀ m1, lookupMeta rtm (lowerString e.boost.tokenAddress) = some m1 →
      (updateEntryMeta rtm rpm e).meta = some m1) ∧
    (recentPairMeta rpm e = none →
      lookupMeta rtm (lowerString e.boost.tokenAddress) = none →
      (updateEntryMeta rtm rpm e).meta = e.meta) ∧
    ((mapBoostToRecentBubbleNode e r).symbol = e.meta.bind (fun m => m.symbol) ∧
      (mapBoostToRecentBubbleNode e r).marketCap = e.meta.bind (fun m => m.marketCap)) := by
  refine ⟨?_, ?_, ?_, ?_, ?_, ?_⟩
  · intro m2 h2
    rw [refreshTopNodes, refreshNodesGo_get, hb]
    simp [h2, mapBoostToBubbleNode]
  · intro h2
    rw [refreshTopNodes, refreshNodesGo_get, hb]
    simp [h2, mapBoostToBubbleNode]
  · intro m2 h2
    simp [updateEntryMeta, h2]
  · intro h2 m1 h1
    simp [updateEntryMeta, h2, h1]
  · intro h2 h1
    cases hm : e.meta <;> simp [updateEntryMeta, h2, h1, hm]
  · constructor <;> simp [mapBoostToRecentBubbleNode, mapBoostToBubbleNode]

/-- Witness for C1: the amended theorem applied to the concrete merge
scenarios of both caches — the Pass-2 record wins wholesale in the top
refresh and, by pair key, in the recent entry overlay — and to an entry
whose both passes resolved nothing, whose prior-cycle metadata is kept. -/
theorem claim_C1_witness :
    ((refreshTopNodes [cxMergeBoost] cxMergeTokenMap cxMergePairMap).get? 0).map
        (fun n => (n.symbol, n.marketCap)) =
      some ((none : Option String), some (1000000 : Int)) ∧
    (updateEntryMeta cxMergeRecentTokenMap cxMergeRecentPairMap cxMergeEntry).meta =
      some { emptyTokenMeta with marketCap := some 1000000 } ∧
    (updateEntryMeta [] [] cxMergePrevEntry).meta = cxMergePrevEntry.meta := by
  refine ⟨?_, ?_, ?_⟩
  · exact (claim_C1_amended [cxMergeBoost] cxMergeTokenMap cxMergePairMap 0 cxMergeBoost
      cxMergeEntry cxMergeRecentTokenMap cxMergeRecentPairMap 1 (by decide)).1
      { emptyTokenMeta with marketCap := some 1000000 } (by decide)
  · exact (claim_C1_amended [cxMergeBoost] cxMergeTokenMap cxMergePairMap 0 cxMergeBoost
      cxMergeEntry cxMergeRecentTokenMap cxMergeRecentPairMap 1 (by decide)).2.2.1
      { emptyTokenMeta with marketCap := some 1000000 } (by decide)
  · exact (claim_C1_amended [cxMergeBoost] cxMergeTokenMap cxMergePairMap 0 cxMergeBoost
      cxMergePrevEntry [] [] 1 (by decide)).2.2.2.2.1 (by decide) (by decide)

/-! ### Claim C5 -/

/-- C5: a refresh's listing stage fails exactly when the primary top source
result is a failure, in which case that error is the refresh's terminal
error, and a failed non-primary source (latest boosts, ads, token profiles)
contributes an empty result set to the merge instead of failing it. -/
theorem claim_C5_theorem (now : Int)
    (topR latestR adsR profilesR : Except String (List Boost))
    (tm pm : List (String × TokenMeta)) (L : Nat) :
    ((refreshTopBoostBubblesModel now topR latestR adsR profilesR tm pm L).isOk ↔
        topR.isOk) ∧
    (∀ e, topR = .error e →
      refreshTopBoostBubblesModel now topR latestR adsR profilesR tm pm L = .error e) ∧
    (∀ e, latestR = .error e →
      fetchCombinedBoosts topR latestR adsR profilesR L =
        fetchCombinedBoosts topR (.ok []) adsR profilesR L) ∧
    (∀ e, adsR = .error e →
      fetchCombinedBoosts topR latestR adsR profilesR L =
        fetchCombinedBoosts topR latestR (.ok []) profilesR L) ∧
    (∀ e, profilesR = .error e →
      fetchCombinedBoosts topR latestR adsR profilesR L =
        fetchCombinedBoosts topR latestR adsR (.ok []) L) := by
  refine ⟨?_, ?_, ?_, ?_, ?_⟩
  · cases topR with
    | error e =>
      simp [refreshTopBoostBubblesModel, fetchCombinedBoosts, Except.isOk, Except.toBool]
    | ok t =>
      simp [refreshTopBoostBubblesModel, fetchCombinedBoosts, Except.isOk, Except.toBool]
  · intro e he
    subst he
    simp [refreshTopBoostBubblesModel, fetchCombinedBoosts]
  · intro e he
    subst he
    simp [fetchCombinedBoosts, orEmptyList]
  · intro e he
    subst he
    simp [fetchCombinedBoosts, orEmptyList]
  · intro e he
    subst he
    simp [fetchCombinedBoosts, orEmptyList]

/-- Witness for C5: a failing primary source is the terminal error of the
refresh, and a failing latest-boosts source merges like an empty list. -/
theorem claim_C5_witness :
    refreshTopBoostBubblesModel 0 (.error "top down") (.ok []) (.ok []) (.ok [])
        [] [] 30 = .error "top down" ∧
    fetchCombinedBoosts (.ok [cxMergeBoost]) (.error "latest down") (.ok []) (.ok [])
        30 = fetchCombinedBoosts (.ok [cxMergeBoost]) (.ok []) (.ok []) (.ok []) 30 := by
  exact ⟨(claim_C5_theorem 0 (.error "top down") (.ok []) (.ok []) (.ok [])
      [] [] 30).2.1 "top down" rfl,
    (claim_C5_theorem 0 (.ok [cxMergeBoost]) (.error "latest down") (.ok []) (.ok [])
      [] [] 30).2.2.1 "latest down" rfl⟩

/-! ### Recent-registry helper lemmas -/

theorem updateEntryMeta_key (tm pm : List (String × TokenMeta)) (e : RecentEntry) :
    (updateEntryMeta tm pm e).key = e.key := by
  unfold updateEntryMeta
  split <;> rfl

theorem updateEntryMeta_lastSeen (tm pm : List (String × TokenMeta)) (e : RecentEntry) :
    (updateEntryMeta tm pm e).lastSeenAtMs = e.lastSeenAtMs := by
  unfold updateEntryMeta
  split <;> rfl

theorem registrySet_keys_nodup (reg : List RecentEntry) (e : RecentEntry)
    (h : (registryKeys reg).Nodup) : (registryKeys (registrySet reg e)).Nodup := by
  by_cases hin : reg.any (fun x => x.key == e.key)
  · have hkeys : registryKeys (registrySet reg e) = registryKeys reg := by
      simp only [registrySet, if_pos hin, registryKeys, List.map_map]
      apply List.map_congr_left
      intro x _
      by_cases hx : x.key == e.key
      · have hxe : x.key = e.key := by simpa using hx
        simp [Function.comp, hx, hxe]
      · simp [Function.comp, hx]
    rw [hkeys]
    exact h
  · have hmem : e.key ∉ registryKeys reg := by
      intro hmem
      apply hin
      rw [List.any_eq_true]
      simp only [registryKeys, List.mem_map] at hmem
      obtain ⟨x, hx, hkx⟩ := hmem
      exact ⟨x, hx, by simp [hkx]⟩
    simp only [registrySet, if_neg hin, registryKeys, List.map_append]
    simp only [registryKeys] at hmem h
    simp [List.nodup_append, h, hmem]

theorem foldl_upsert_keys_nodup (now : Int) :
    ∀ (bs : List Boost) (reg : List RecentEntry), (registryKeys reg).Nodup →
      (registryKeys (bs.foldl (upsertBoost now) reg)).Nodup := by
  intro bs
  induction bs with
  | nil => intro reg h; simpa using h
  | cons b rest ih =>
    intro reg h
    exact ih _ (registrySet_keys_nodup reg _ h)

theorem ttlSweep_keys (now : Int) (tm pm : List (String × TokenMeta))
    (reg : List RecentEntry) :
    registryKeys (ttlSweep now tm pm reg) =
      registryKeys (reg.filter (fun e => ! decide (now - e.lastSeenAtMs > RECENT_TTL_MS))) := by
  simp only [ttlSweep, registryKeys, List.map_map]
  apply List.map_congr_left
  intro x _
  simp [Function.comp, updateEntryMeta_key]

theorem ttlSweep_keys_nodup (now : Int) (tm pm : List (String × TokenMeta))
    (reg : List RecentEntry) (h : (registryKeys reg).Nodup) :
    (registryKeys (ttlSweep now tm pm reg)).Nodup := by
  rw [ttlSweep_keys]
  simp only [registryKeys] at h ⊢
  exact ((List.filter_sublist reg).map (fun e => e.key)).nodup h

theorem ttlSweep_ages (now : Int) (tm pm : List (String × TokenMeta))
    (reg : List RecentEntry) :
    ∀ e ∈ ttlSweep now tm pm reg, now - e.lastSeenAtMs ≤ RECENT_TTL_MS := by
  intro e he
  simp only [ttlSweep, List.mem_map] at he
  obtain ⟨x, hx, hxe⟩ := he
  have hpred := List.of_mem_filter hx
  rw [← hxe, updateEntryMeta_lastSeen]
  simp only [Bool.not_eq_eq_eq_not, Bool.not_true, decide_eq_false_iff_not] at hpred
  omega

theorem nodup_subset_length {l l2 : List String} (h : l.Nodup)
    (hsub : ∀ x ∈ l, x ∈ l2) : l.length ≤ l2.length := by
  calc l.length = l.toFinset.card := (List.toFinset_card_of_nodup h).symm
    _ ≤ l2.toFinset.card := Finset.card_le_card (fun x hx =>
        List.mem_toFinset.mpr (hsub x (List.mem_toFinset.mp hx)))
    _ ≤ l2.length := List.toFinset_card_le l2

theorem capacityTrim_length (reg : List RecentEntry)
    (h : (registryKeys reg).Nodup) : (capacityTrim reg).length ≤ RECENT_CAPACITY := by
  by_cases hlen : reg.length > RECENT_CAPACITY
  · simp only [capacityTrim, if_pos hlen]
    have hf : (reg.filter (fun e =>
        (((sortByLastSeenDesc reg).take RECENT_CAPACITY).map (fun x => x.key)).contains
          e.key)).length =
        (registryKeys (reg.filter (fun e =>
          (((sortByLastSeenDesc reg).take RECENT_CAPACITY).map (fun x => x.key)).contains
            e.key))).length := by
      simp [registryKeys]
    rw [hf]
    have hnd : (registryKeys (reg.filter (fun e =>
        (((sortByLastSeenDesc reg).take RECENT_CAPACITY).map (fun x => x.key)).contains
          e.key))).Nodup := by
      simp only [registryKeys] at h ⊢
      exact ((List.filter_sublist reg).map (fun e => e.key)).nodup h
    have hsub : ∀ k ∈ registryKeys (reg.filter (fun e =>
        (((sortByLastSeenDesc reg).take RECENT_CAPACITY).map (fun x => x.key)).contains
          e.key)),
        k ∈ ((sortByLastSeenDesc reg).take RECENT_CAPACITY).map (fun x => x.key) := by
      intro k hk
      simp only [registryKeys, List.mem_map] at hk
      obtain ⟨x, hx, hxk⟩ := hk
      have hc := List.of_mem_filter hx
      rw [← hxk]
      simpa using hc
    have hkeeplen : (((sortByLastSeenDesc reg).take RECENT_CAPACITY).map
        (fun x => x.key)).length ≤ RECENT_CAPACITY := by
      simp [List.length_take]
    exact le_trans (nodup_subset_length hnd hsub) hkeeplen
  · simp only [capacityTrim, if_neg hlen]
    omega

theorem capacityTrim_subset (reg : List RecentEntry) :
    ∀ e ∈ capacityTrim reg, e ∈ reg := by
  intro e he
  by_cases hlen : reg.length > RECENT_CAPACITY
  · simp only [capacityTrim, if_pos hlen] at he
    exact List.mem_of_mem_filter he
  · simpa [capacityTrim, if_neg hlen] using he

theorem capacityTrim_keys_nodup (reg : List RecentEntry)
    (h : (registryKeys reg).Nodup) : (registryKeys (capacityTrim reg)).Nodup := by
  by_cases hlen : reg.length > RECENT_CAPACITY
  · simp only [capacityTrim, if_pos hlen, registryKeys]
    simp only [registryKeys] at h
    exact ((List.filter_sublist reg).map (fun e => e.key)).nodup h
  · simpa [capacityTrim, if_neg hlen] using h

theorem capacityTrim_of_le (reg : List RecentEntry)
    (h : reg.length ≤ RECENT_CAPACITY) : capacityTrim reg = reg := by
  simp only [capacityTrim]
  rw [if_neg (by omega)]

theorem insertByDesc_perm (e : RecentEntry) :
    ∀ l : List RecentEntry, (insertByDesc e l).Perm (e :: l) := by
  intro l
  induction l with
  | nil => simp [insertByDesc]
  | cons x xs ih =>
    by_cases hc : e.lastSeenAtMs ≥ x.lastSeenAtMs
    · simp [insertByDesc, hc]
    · simp only [insertByDesc, if_neg hc]
      exact (ih.cons x).trans (List.Perm.swap e x xs)

theorem sortByLastSeenDesc_perm (reg : List RecentEntry) :
    (sortByLastSeenDesc reg).Perm reg := by
  induction reg with
  | nil => simp [sortByLastSeenDesc]
  | cons x xs ih =>
    simp only [sortByLastSeenDesc, List.foldr_cons]
    exact (insertByDesc_perm x _).trans (ih.cons x)

theorem recentNodesGo_ranks :
    ∀ (l : List RecentEntry) (k : Nat),
      (recentNodesGo l k).map (fun n => n.rank) = List.range' (k + 1) l.length := by
  intro l
  induction l with
  | nil => intro k; simp [recentNodesGo]
  | cons e rest ih =>
    intro k
    simp [recentNodesGo, mapBoostToRecentBubbleNode, ih (k + 1), List.range'_succ]

theorem recentNodesGo_ids :
    ∀ (l : List RecentEntry) (k : Nat),
      (recentNodesGo l k).map (fun n => n.id) = l.map (fun e => e.key) := by
  intro l
  induction l with
  | nil => intro k; simp [recentNodesGo]
  | cons e rest ih =>
    intro k
    simp [recentNodesGo, mapBoostToRecentBubbleNode, ih (k + 1)]

theorem recentNodesGo_length :
    ∀ (l : List RecentEntry) (k : Nat), (recentNodesGo l k).length = l.length := by
  intro l
  induction l with
  | nil => intro k; simp [recentNodesGo]
  | cons e rest ih => intro k; simp [recentNodesGo, ih (k + 1)]

theorem refreshNodesGo_length (pm tm : List (String × TokenMeta)) :
    ∀ (l : List Boost) (k : Nat), (refreshNodesGo pm tm l k).length = l.length := by
  intro l
  induction l with
  | nil => intro k; simp [refreshNodesGo]
  | cons b rest ih => intro k; simp [refreshNodesGo, ih (k + 1)]

/-! ### Claim C6 -/

/-- C6: immediately after a completed RecentWindowCache refresh (over a
registry whose keys are unique, which every reachable registry satisfies,
the initial one being empty), the registry holds at most RECENT_CAPACITY
entries, no entry older than RECENT_TTL_MS survives, and applying TTL
eviction plus capacity trimming once more leaves the registry unchanged. -/
theorem claim_C6_theorem (reg : List RecentEntry) (now : Int) (boosts : List Boost)
    (tm pm : List (String × TokenMeta)) (hnd : (registryKeys reg).Nodup) :
    (refreshRecentRegistry reg now boosts tm pm).length ≤ RECENT_CAPACITY ∧
    (∀ e ∈ refreshRecentRegistry reg now boosts tm pm,
      now - e.lastSeenAtMs ≤ RECENT_TTL_MS) ∧
    evictPass now (refreshRecentRegistry reg now boosts tm pm) =
      refreshRecentRegistry reg now boosts tm pm := by
  have h2 : (registryKeys (ttlSweep now tm pm (boosts.foldl (upsertBoost now) reg))).Nodup :=
    ttlSweep_keys_nodup now tm pm _ (foldl_upsert_keys_nodup now boosts reg hnd)
  have hlen : (refreshRecentRegistry reg now boosts tm pm).length ≤ RECENT_CAPACITY :=
    capacityTrim_length _ h2
  have hages : ∀ e ∈ refreshRecentRegistry reg now boosts tm pm,
      now - e.lastSeenAtMs ≤ RECENT_TTL_MS := by
    intro e he
    exact ttlSweep_ages now tm pm _ e (capacityTrim_subset _ e he)
  refine ⟨hlen, hages, ?_⟩
  have hfilter : (refreshRecentRegistry reg now boosts tm pm).filter
      (fun e => ! decide (now - e.lastSeenAtMs > RECENT_TTL_MS)) =
      refreshRecentRegistry reg now boosts tm pm := by
    rw [List.filter_eq_self]
    intro a ha
    have := hages a ha
    simp only [Bool.not_eq_eq_eq_not, Bool.not_true, decide_eq_false_iff_not]
    omega
  rw [evictPass, hfilter]
  exact capacityTrim_of_le _ hlen

/-- Witness for C6: the theorem applied to a one-entry registry refreshed
with one new record at time 5. -/
theorem claim_C6_witness :
    (registryKeys [cxDupOldEntry]).Nodup ∧
    ((refreshRecentRegistry [cxDupOldEntry] 5 [cxDupBoostNew] [] []).length ≤ RECENT_CAPACITY ∧
      (∀ e ∈ refreshRecentRegistry [cxDupOldEntry] 5 [cxDupBoostNew] [] [],
        5 - e.lastSeenAtMs ≤ RECENT_TTL_MS) ∧
      evictPass 5 (refreshRecentRegistry [cxDupOldEntry] 5 [cxDupBoostNew] [] []) =
        refreshRecentRegistry [cxDupOldEntry] 5 [cxDupBoostNew] [] []) :=
  ⟨by decide, claim_C6_theorem [cxDupOldEntry] 5 [cxDupBoostNew] [] [] (by decide)⟩

/-! ### Claim C9 -/

/-- C9 counterexample: after a refresh that re-observes token (c, t) through
a pair-style listing URL while its older token-scoped entry is still within
the retention TTL, the recent snapshot holds two records with the same
case-normalized token identity, so identities within one snapshot are not
pairwise distinct for the recent cache. -/
theorem claim_C9_counterexample :
    (refreshRecentNodes (refreshRecentRegistry [cxDupOldEntry] 5 [cxDupBoostNew] [] [])).map
        (fun n => (lowerString n.chainId, lowerString n.tokenAddress)) =
      [("c", "t"), ("c", "t")] ∧
    ¬ ((refreshRecentNodes (refreshRecentRegistry [cxDupOldEntry] 5 [cxDupBoostNew] [] [])).map
        (fun n => (lowerString n.chainId, lowerString n.tokenAddress))).Nodup := by
  exact ⟨by decide, by decide⟩

/-- C9 (amended): every successful refresh assigns rank values exactly
1..len(records) in list order in both caches, ranks being recomputed from
list position; the top snapshot has pairwise-distinct case-normalized token
identities; the recent snapshot has pairwise-distinct registry ids (its
pair-or-token scoped keys), but the same token identity may appear under two
different keys. Stated for requested limits of at least 1 (all call sites
pass 30, a validated 1..100 limit, or the recent capacity 100) and for
registries with unique keys (an invariant of the JS Map). -/
theorem claim_C9_amended (now : Int)
    (topR latestR adsR profilesR : Except String (List Boost))
    (tm pm : List (String × TokenMeta)) (L : Nat) (hL : 1 ≤ L)
    (reg : List RecentEntry) (rnow : Int) (boosts : List Boost)
    (rtm rpm : List (String × TokenMeta)) (hnd : (registryKeys reg).Nodup)
    (st : CacheState)
    (hok : refreshTopBoostBubblesModel now topR latestR adsR profilesR tm pm L = .ok st) :
    (st.data.map (fun n => n.rank) = List.range' 1 st.data.length ∧
      (st.data.map (fun n =>
        lowerString n.chainId ++ ":" ++ lowerString n.tokenAddress)).Nodup) ∧
    ((refreshRecentNodes (refreshRecentRegistry reg rnow boosts rtm rpm)).map
          (fun n => n.rank) =
        List.range' 1
          (refreshRecentNodes (refreshRecentRegistry reg rnow boosts rtm rpm)).length ∧
      ((refreshRecentNodes (refreshRecentRegistry reg rnow boosts rtm rpm)).map
          (fun n => n.id)).Nodup) := by
  constructor
  · cases topR with
    | error e => simp [refreshTopBoostBubblesModel, fetchCombinedBoosts] at hok
    | ok t =>
      simp only [refreshTopBoostBubblesModel, fetchCombinedBoosts, Except.ok.injEq] at hok
      rw [← hok]
      constructor
      · simp only [refreshTopNodes]
        rw [refreshNodesGo_ranks, refreshNodesGo_length]
      · simp only [refreshTopNodes]
        rw [refreshNodesGo_idkeys]
        exact ((List.take_sublist _ _).map dedupeKey).nodup
          (dedupeBoosts_keys_nodup _ _ hL)
  · have hfinal : (registryKeys (refreshRecentRegistry reg rnow boosts rtm rpm)).Nodup :=
      capacityTrim_keys_nodup _
        (ttlSweep_keys_nodup rnow rtm rpm _ (foldl_upsert_keys_nodup rnow boosts reg hnd))
    constructor
    · simp only [refreshRecentNodes]
      rw [recentNodesGo_ranks, recentNodesGo_length]
    · simp only [refreshRecentNodes]
      rw [recentNodesGo_ids]
      have hperm := (sortByLastSeenDesc_perm
        (refreshRecentRegistry reg rnow boosts rtm rpm)).map (fun e => e.key)
      exact hperm.nodup_iff.mpr (by simpa [registryKeys] using hfinal)

/-- Witness for C9: the amended theorem applied to a one-record top refresh
and the concrete recent refresh of the counterexample scenario. -/
theorem claim_C9_witness :
    (cxTopState.data.map (fun n => n.rank) = List.range' 1 cxTopState.data.length ∧
      (cxTopState.data.map (fun n =>
        lowerString n.chainId ++ ":" ++ lowerString n.tokenAddress)).Nodup) ∧
    ((refreshRecentNodes (refreshRecentRegistry [cxDupOldEntry] 5 [cxDupBoostNew] [] [])).map
          (fun n => n.rank) =
        List.range' 1
          (refreshRecentNodes
            (refreshRecentRegistry [cxDupOldEntry] 5 [cxDupBoostNew] [] [])).length ∧
      ((refreshRecentNodes (refreshRecentRegistry [cxDupOldEntry] 5 [cxDupBoostNew] [] [])).map
          (fun n => n.id)).Nodup) :=
  claim_C9_amended 0 (.ok [cxMergeBoost]) (.ok []) (.ok []) (.ok []) [] [] 30 (by decide)
    [cxDupOldEntry] 5 [cxDupBoostNew] [] [] (by decide) cxTopState rfl

/-! ### Claim C4 -/

/-- C4 counterexample: a cached one-record snapshot exists but is 130s old
(over the 120s stale TTL), the awaited refresh fails, and the call fails
with the refresh error instead of returning the existing cached state. -/
theorem claim_C4_counterexample :
    getTopBoostBubblesModel 130000 (some cxTopState) (.error "upstream") 1
        30000 120000 = .error "upstream" ∧
    cxTopState.data.length = 1 := by
  exact ⟨rfl, by decide⟩

/-- C4 (amended): a snapshot call fails exactly when the cached state fails
the serve criteria — absent, older than the stale TTL, or (for the top
cache) holding fewer records than the requested limit — and the refresh the
caller waits on fails, the surfaced error being the refresh error; whenever
the serve criteria hold, the cached state itself is returned; and a served
success is always the cached state or the refresh result, never a
substituted empty success. -/
theorem claim_C4_amended (now : Int) (latest : Option CacheState)
    (refreshResult : Except String CacheState) (limit : Nat) (f s : Int) :
    (∀ e, getTopBoostBubblesModel now latest refreshResult limit f s = .error e ↔
      (topServesCached now latest limit f s = false ∧ refreshResult = .error e)) ∧
    (topServesCached now latest limit f s = true →
      ∃ l stale, latest = some l ∧
        getTopBoostBubblesModel now latest refreshResult limit f s = .ok (l, stale)) ∧
    (∀ st stale,
      getTopBoostBubblesModel now latest refreshResult limit f s = .ok (st, stale) →
      latest = some st ∨ refreshResult = .ok st) ∧
    (∀ e, getRecentBoostBubblesModel now latest refreshResult f s = .error e ↔
      (recentServesCached now latest f s = false ∧ refreshResult = .error e)) ∧
    (recentServesCached now latest f s = true →
      ∃ l stale, latest = some l ∧
        getRecentBoostBubblesModel now latest refreshResult f s = .ok (l, stale)) ∧
    (∀ st stale,
      getRecentBoostBubblesModel now latest refreshResult f s = .ok (st, stale) →
      latest = some st ∨ refreshResult = .ok st) := by
  refine ⟨?_, ?_, ?_, ?_, ?_, ?_⟩
  · intro e
    cases latest with
    | none =>
      cases refreshResult <;>
        simp [getTopBoostBubblesModel, topServesCached, Except.map]
    | some l =>
      simp only [getTopBoostBubblesModel, topServesCached]
      split_ifs with h1 h2
      · simp [h1.1, h1.2]
      · simp [h2.1, h2.2]
      · cases refreshResult <;>
          simp_all [Except.map, Classical.not_and_iff_or_not_not]
  · intro hserve
    cases latest with
    | none => simp [topServesCached] at hserve
    | some l =>
      simp only [topServesCached, Bool.or_eq_true, Bool.and_eq_true,
        decide_eq_true_eq] at hserve
      simp only [getTopBoostBubblesModel]
      split_ifs with h1 h2
      · exact ⟨l, false, rfl, rfl⟩
      · exact ⟨l, true, rfl, rfl⟩
      · exact absurd hserve (by tauto)
  · intro st stale hok
    cases latest with
    | none =>
      cases refreshResult with
      | ok v =>
        simp [getTopBoostBubblesModel, Except.map] at hok
        exact Or.inr (by rw [hok.1])
      | error e => simp [getTopBoostBubblesModel, Except.map] at hok
    | some l =>
      simp only [getTopBoostBubblesModel] at hok
      split_ifs at hok with h1 h2
      · simp at hok
        exact Or.inl (by rw [hok.1])
      · simp at hok
        exact Or.inl (by rw [hok.1])
      · cases refreshResult with
        | ok v =>
          simp [Except.map] at hok
          exact Or.inr (by rw [hok.1])
        | error e => simp [Except.map] at hok
  · intro e
    cases latest with
    | none =>
      cases refreshResult <;>
        simp [getRecentBoostBubblesModel, recentServesCached, Except.map]
    | some l =>
      simp only [getRecentBoostBubblesModel, recentServesCached]
      split_ifs with h1 h2
      · simp [h1]
      · simp [h2]
      · cases refreshResult <;> simp_all [Except.map]
  · intro hserve
    cases latest with
    | none => simp [recentServesCached] at hserve
    | some l =>
      simp only [recentServesCached, Bool.or_eq_true, decide_eq_true_eq] at hserve
      simp only [getRecentBoostBubblesModel]
      split_ifs with h1 h2
      · exact ⟨l, false, rfl, rfl⟩
      · exact ⟨l, true, rfl, rfl⟩
      · exact absurd hserve (by tauto)
  · intro st stale hok
    cases latest with
    | none =>
      cases refreshResult with
      | ok v =>
        simp [getRecentBoostBubblesModel, Except.map] at hok
        exact Or.inr (by rw [hok.1])
      | error e => simp [getRecentBoostBubblesModel, Except.map] at hok
    | some l =>
      simp only [getRecentBoostBubblesModel] at hok
      split_ifs at hok with h1 h2
      · simp at hok
        exact Or.inl (by rw [hok.1])
      · simp at hok
        exact Or.inl (by rw [hok.1])
      · cases refreshResult with
        | ok v =>
          simp [Except.map] at hok
          exact Or.inr (by rw [hok.1])
        | error e => simp [Except.map] at hok

/-- Witness for C4: the amended theorem at the concrete expired-with-cache
inputs of the counterexample, instantiated at the surfaced error. -/
theorem claim_C4_witness :
    (getTopBoostBubblesModel 130000 (some cxTopState) (.error "upstream") 1
          30000 120000 = .error "upstream" ↔
      (topServesCached 130000 (some cxTopState) 1 30000 120000 = false ∧
        (.error "upstream" : Except String CacheState) = .error "upstream")) :=
  (claim_C4_amended 130000 (some cxTopState) (.error "upstream") 1 30000 120000).1
    "upstream"

/-! ### Claim C7 -/

/-- C7 counterexample: against a fresh-aged cached recent snapshot holding
zero records and a requested limit of 1, the recent get serves the cached
empty state immediately (the refresh outcome, here a failure, is never
awaited), while the top get at the same inputs treats the state as expired
and waits on the refresh; so the recent get does not apply the record-count
criterion of the top get. -/
theorem claim_C7_counterexample :
    getRecentBoostBubblesModel 0 (some cxEmptyState) (.error "refresh failed")
        30000 120000 = .ok (cxEmptyState, false) ∧
    getTopBoostBubblesModel 0 (some cxEmptyState) (.error "refresh failed") 1
        30000 120000 = .error "refresh failed" := by
  exact ⟨rfl, rfl⟩

/-- C7 (amended): the top cache's get treats the cached state as expired —
the caller waits on the refresh — when there is no cached state, when its
age exceeds the stale TTL, and also whenever the cached record count is
below the requested limit; the recent cache's get takes no limit and applies
only the age-based criteria, behaving exactly like the top get with the
record-count condition voided (limit zero). -/
theorem claim_C7_amended (now : Int) (latest : Option CacheState)
    (refreshResult : Except String CacheState) (limit : Nat) (f s : Int) :
    (∀ l, latest = some l → l.data.length < limit →
      getTopBoostBubblesModel now latest refreshResult limit f s =
        refreshResult.map (fun st => (st, false))) ∧
    (latest = none →
      getTopBoostBubblesModel now latest refreshResult limit f s =
        refreshResult.map (fun st => (st, false))) ∧
    (∀ l, latest = some l → f ≤ s → now - l.updatedAtMs > s →
      getTopBoostBubblesModel now latest refreshResult limit f s =
        refreshResult.map (fun st => (st, false))) ∧
    (getRecentBoostBubblesModel now latest refreshResult f s =
      getTopBoostBubblesModel now latest refreshResult 0 f s) := by
  refine ⟨?_, ?_, ?_, ?_⟩
  · intro l hl hcount
    subst hl
    simp only [getTopBoostBubblesModel]
    rw [if_neg (by omega), if_neg (by omega)]
  · intro hnone
    subst hnone
    rfl
  · intro l hl hfs hage
    subst hl
    simp only [getTopBoostBubblesModel]
    rw [if_neg (by omega), if_neg (by omega)]
  · cases latest with
    | none => rfl
    | some l =>
      simp [getRecentBoostBubblesModel, getTopBoostBubblesModel, Nat.zero_le]

/-- Witness for C7: the amended theorem at the concrete inputs of the
counterexample, using its below-limit clause. -/
theorem claim_C7_witness :
    cxEmptyState.data.length < 1 ∧
    getTopBoostBubblesModel 0 (some cxEmptyState) (.error "refresh failed") 1
        30000 120000 =
      (.error "refresh failed" : Except String CacheState).map (fun st => (st, false)) :=
  ⟨by decide,
    (claim_C7_amended 0 (some cxEmptyState) (.error "refresh failed") 1
      30000 120000).1 cxEmptyState rfl (by decide)⟩

/-! ### Claim C10 -/

/-- C10: for every request with a valid limit against either endpoint, the
served records array is the cached snapshot truncated to its first limit
records: its length is at most the limit and its entry at every index below
the limit is the snapshot entry at the same index, even when the snapshot
holds more records than the limit. -/
theorem claim_C10_theorem (now : Int) (latest : Option CacheState)
    (refreshResult : Except String CacheState) (limit : Nat) :
    (∀ st stale data,
      getTopBoostBubblesModel now latest refreshResult limit 30000 120000 =
        .ok (st, stale) →
      topBoostsEndpointData now latest refreshResult limit = .ok data →
      data.length ≤ limit ∧ ∀ i, i < limit → data[i]? = st.data[i]?) ∧
    (∀ st stale data,
      getRecentBoostBubblesModel now latest refreshResult 30000 120000 =
        .ok (st, stale) →
      recentEndpointData now latest refreshResult limit = .ok data →
      data.length ≤ limit ∧ ∀ i, i < limit → data[i]? = st.data[i]?) := by
  constructor
  · intro st stale data hok hdata
    simp only [topBoostsEndpointData, hok, Except.map] at hdata
    have hd : data = st.data.take limit := by
      exact (Except.ok.injEq _ _).mp hdata.symm
    subst hd
    refine ⟨List.length_take_le limit st.data, ?_⟩
    intro i hi
    simp [List.getElem?_take, hi]
  · intro st stale data hok hdata
    simp only [recentEndpointData, hok, Except.map] at hdata
    have hd : data = st.data.take limit := by
      exact (Except.ok.injEq _ _).mp hdata.symm
    subst hd
    refine ⟨List.length_take_le limit st.data, ?_⟩
    intro i hi
    simp [List.getElem?_take, hi]

/-- Witness for C10: a limit-1 request against the one-record snapshot is
served that record, and the truncation bound holds. -/
theorem claim_C10_witness :
    ((cxTopState.data.take 1).length ≤ 1 ∧
      ∀ i, i < 1 → (cxTopState.data.take 1)[i]? = cxTopState.data[i]?) :=
  (claim_C10_theorem 0 (some cxTopState) (.error "unused") 1).1 cxTopState false
    (cxTopState.data.take 1) rfl rfl

/-! ### Retry-loop helper lemmas -/

theorem retryLoopGo_success {α : Type} {outcome : Nat → AttemptOutcome α}
    {attempt : Nat} {v : α} (remaining : Nat) (h : outcome attempt = .success v) :
    retryLoopGo outcome attempt remaining =
      { result := .ok v, attemptsMade := attempt, delaysMs := [] } := by
  cases remaining <;> simp [retryLoopGo, h]

theorem retryLoopGo_fatal {α : Type} {outcome : Nat → AttemptOutcome α}
    {attempt : Nat} (remaining : Nat) (h : outcome attempt = .fatalError) :
    retryLoopGo outcome attempt remaining =
      { result := .error "request failed", attemptsMade := attempt, delaysMs := [] } := by
  cases remaining <;> simp [retryLoopGo, h]

theorem retryLoopGo_transient_zero {α : Type} {outcome : Nat → AttemptOutcome α}
    {attempt : Nat} (h : outcome attempt = .transientError) :
    retryLoopGo outcome attempt 0 =
      { result := .error "request failed", attemptsMade := attempt, delaysMs := [] } := by
  simp [retryLoopGo, h]

theorem retryLoopGo_transient_succ {α : Type} {outcome : Nat → AttemptOutcome α}
    {attempt : Nat} (r : Nat) (h : outcome attempt = .transientError) :
    retryLoopGo outcome attempt (r + 1) =
      { result := (retryLoopGo outcome (attempt + 1) r).result,
        attemptsMade := (retryLoopGo outcome (attempt + 1) r).attemptsMade,
        delaysMs := 200 * 2 ^ (attempt - 1) ::
          (retryLoopGo outcome (attempt + 1) r).delaysMs } := by
  simp [retryLoopGo, h]

theorem retryLoopGo_spec {α : Type} (outcome : Nat → AttemptOutcome α) :
    ∀ (remaining attempt : Nat),
      attempt ≤ (retryLoopGo outcome attempt remaining).attemptsMade ∧
      (retryLoopGo outcome attempt remaining).attemptsMade ≤ attempt + remaining ∧
      (∀ i, attempt ≤ i → i < (retryLoopGo outcome attempt remaining).attemptsMade →
        outcome i = .transientError) ∧
      (retryLoopGo outcome attempt remaining).delaysMs =
        (List.range' attempt
          ((retryLoopGo outcome attempt remaining).attemptsMade - attempt)).map
          (fun i => 200 * 2 ^ (i - 1)) := by
  intro remaining
  induction remaining with
  | zero =>
    intro attempt
    cases h : outcome attempt with
    | success v =>
      rw [retryLoopGo_success 0 h]
      refine ⟨le_rfl, by simp, ?_, by simp⟩
      intro i h1 h2
      dsimp only at h2
      omega
    | transientError =>
      rw [retryLoopGo_transient_zero h]
      refine ⟨le_rfl, by simp, ?_, by simp⟩
      intro i h1 h2
      dsimp only at h2
      omega
    | fatalError =>
      rw [retryLoopGo_fatal 0 h]
      refine ⟨le_rfl, by simp, ?_, by simp⟩
      intro i h1 h2
      dsimp only at h2
      omega
  | succ r ih =>
    intro attempt
    cases h : outcome attempt with
    | success v =>
      rw [retryLoopGo_success (r + 1) h]
      refine ⟨le_rfl, by simp, ?_, by simp⟩
      intro i h1 h2
      dsimp only at h2
      omega
    | fatalError =>
      rw [retryLoopGo_fatal (r + 1) h]
      refine ⟨le_rfl, by simp, ?_, by simp⟩
      intro i h1 h2
      dsimp only at h2
      omega
    | transientError =>
      obtain ⟨ih1, ih2, ih3, ih4⟩ := ih (attempt + 1)
      rw [retryLoopGo_transient_succ r h]
      dsimp only
      refine ⟨by omega, by omega, ?_, ?_⟩
      · intro i h1 h2
        by_cases hia : i = attempt
        · rw [hia]
          exact h
        · exact ih3 i (by omega) h2
      · have hk : (retryLoopGo outcome (attempt + 1) r).attemptsMade - attempt =
            ((retryLoopGo outcome (attempt + 1) r).attemptsMade - (attempt + 1)) + 1 := by
          omega
        rw [hk, List.range'_succ, List.map_cons, ← ih4]

/-! ### Claim C8 -/

/-- C8: the primary listing fetch is attempted at most 3 times, the
token-level batch fetch at most 2 times and a pair-level lookup at most 2
times (it makes exactly one attempt); every attempt beyond the first follows
a transient network error of the previous attempt — a fatal outcome
(non-2xx status or schema/parse mismatch) is never retried and the very
first fatal outcome ends the loop with an error — and the backoff delays are
exactly 200 * 2 ^ (attempt - 1) milliseconds for the successive failed
attempts, that is 200ms doubled per attempt. -/
theorem claim_C8_theorem {α : Type} (outcome outcomeB outcomeP : Nat → AttemptOutcome α) :
    (fetchDexscreenerListRetry outcome).attemptsMade ≤ 3 ∧
    (∀ i, 1 ≤ i → i < (fetchDexscreenerListRetry outcome).attemptsMade →
      outcome i = .transientError) ∧
    (fetchDexscreenerListRetry outcome).delaysMs =
      (List.range' 1 ((fetchDexscreenerListRetry outcome).attemptsMade - 1)).map
        (fun i => 200 * 2 ^ (i - 1)) ∧
    (fetchBatchRetry outcomeB).attemptsMade ≤ 2 ∧
    (∀ i, 1 ≤ i → i < (fetchBatchRetry outcomeB).attemptsMade →
      outcomeB i = .transientError) ∧
    (fetchBatchRetry outcomeB).delaysMs =
      (List.range' 1 ((fetchBatchRetry outcomeB).attemptsMade - 1)).map
        (fun i => 200 * 2 ^ (i - 1)) ∧
    (fetchPairOnce outcomeP).2 ≤ 2 ∧
    (outcome 1 = .fatalError →
      (fetchDexscreenerListRetry outcome).attemptsMade = 1 ∧
      (fetchDexscreenerListRetry outcome).result = .error "request failed") := by
  obtain ⟨hA1, hA2, hA3, hA4⟩ := retryLoopGo_spec outcome 2 1
  obtain ⟨hB1, hB2, hB3, hB4⟩ := retryLoopGo_spec outcomeB 1 1
  refine ⟨?_, ?_, ?_, ?_, ?_, ?_, ?_, ?_⟩
  · simpa [fetchDexscreenerListRetry, retryLoop] using hA2
  · intro i h1 h2
    exact hA3 i h1 h2
  · exact hA4
  · simpa [fetchBatchRetry, retryLoop] using hB2
  · intro i h1 h2
    exact hB3 i h1 h2
  · exact hB4
  · cases h : outcomeP 1 <;> simp [fetchPairOnce, h]
  · intro h
    rw [fetchDexscreenerListRetry, retryLoop, retryLoopGo_fatal 2 h]
    exact ⟨rfl, rfl⟩

/-- Witness for C8: the theorem at concrete outcome functions — a primary
fetch whose first attempt times out and whose second succeeds, a batch fetch
succeeding immediately, and a pair lookup failing on a schema mismatch —
together with the concretely evaluated trace of the first: two attempts and
a single 200ms delay. -/
theorem claim_C8_witness :
    ((fetchDexscreenerListRetry
        (fun n => if n = 1 then .transientError else .success 7)).attemptsMade ≤ 3 ∧
      (∀ i, 1 ≤ i →
        i < (fetchDexscreenerListRetry
          (fun n => if n = 1 then .transientError else .success (7 : Nat))).attemptsMade →
        (fun n => if n = 1 then AttemptOutcome.transientError else .success (7 : Nat)) i =
          .transientError) ∧
      (fetchDexscreenerListRetry
          (fun n => if n = 1 then .transientError else .success (7 : Nat))).delaysMs =
        (List.range' 1
          ((fetchDexscreenerListRetry
            (fun n => if n = 1 then .transientError else .success (7 : Nat))).attemptsMade
              - 1)).map (fun i => 200 * 2 ^ (i - 1)) ∧
      (fetchBatchRetry (fun _ => .success (1 : Nat))).attemptsMade ≤ 2 ∧
      (∀ i, 1 ≤ i → i < (fetchBatchRetry (fun _ => .success (1 : Nat))).attemptsMade →
        (fun _ => AttemptOutcome.success (1 : Nat)) i = .transientError) ∧
      (fetchBatchRetry (fun _ => .success (1 : Nat))).delaysMs =
        (List.range' 1 ((fetchBatchRetry (fun _ => .success (1 : Nat))).attemptsMade - 1)).map
          (fun i => 200 * 2 ^ (i - 1)) ∧
      (fetchPairOnce (fun _ => AttemptOutcome.fatalError (α := Nat))).2 ≤ 2 ∧
      ((fun n => if n = 1 then AttemptOutcome.transientError else .success (7 : Nat)) 1 =
          .fatalError →
        (fetchDexscreenerListRetry
          (fun n => if n = 1 then .transientError else .success (7 : Nat))).attemptsMade = 1 ∧
        (fetchDexscreenerListRetry
          (fun n => if n = 1 then .transientError else .success (7 : Nat))).result =
            .error "request failed")) ∧
    (fetchDexscreenerListRetry
        (fun n => if n = 1 then .transientError else .success (7 : Nat))).attemptsMade = 2 ∧
    (fetchDexscreenerListRetry
        (fun n => if n = 1 then .transientError else .success (7 : Nat))).delaysMs = [200] := by
  refine ⟨?_, rfl, rfl⟩
  have h := claim_C8_theorem (α := Nat)
    (fun n => if n = 1 then .transientError else .success 7)
    (fun _ => .success 1) (fun _ => .fatalError)
  exact ⟨h.1, h.2.1, h.2.2.1, h.2.2.2.1, h.2.2.2.2.1, h.2.2.2.2.2.1,
    h.2.2.2.2.2.2.1, h.2.2.2.2.2.2.2⟩

/-! ### Single-flight helper lemmas -/

theorem flightStep_inv (st : FlightState) (ev : FlightEvent) (h : flightInv st) :
    flightInv (flightStep st ev).1 := by
  cases ev with
  | getExpired =>
    cases hin : st.inFlight with
    | some r => simpa [flightStep, hin] using h
    | none =>
      have hr : st.running = [] := by simpa [flightInv, hin] using h
      simp [flightStep, hin, flightInv, hr]
  | backgroundTick =>
    cases hin : st.inFlight with
    | some r => simpa [flightStep, hin] using h
    | none =>
      have hr : st.running = [] := by simpa [flightInv, hin] using h
      simp [flightStep, hin, flightInv, hr]
  | complete =>
    cases hin : st.inFlight with
    | some r =>
      have hr : st.running = [r] := by simpa [flightInv, hin] using h
      simp [flightStep, hin, flightInv, hr]
    | none => simpa [flightStep, hin] using h

theorem flightRun_inv (evs : List FlightEvent) :
    ∀ st : FlightState, flightInv st → flightInv (flightRun st evs).1 := by
  induction evs with
  | nil => intro st h; simpa [flightRun] using h
  | cons ev evs ih =>
    intro st h
    simp only [flightRun]
    exact ih _ (flightStep_inv st ev h)

theorem flightRun_joined_some (n : Nat) :
    ∀ (st : FlightState) (r : Nat), st.inFlight = some r →
      flightRun st (List.replicate n .getExpired) = (st, List.replicate n (some r)) := by
  induction n with
  | zero => intro st r _h; simp [flightRun]
  | succ m ih =>
    intro st r h
    have hstep : flightStep st FlightEvent.getExpired = (st, some r) := by
      simp [flightStep, h]
    simp [List.replicate_succ, flightRun, hstep, ih st r h]

/-! ### Claim C3 -/

/-- C3: over the event-loop model of the in-flight handle (each event is a
synchronous section of the source between awaits), at most one refresh is
unsettled at every moment — after any event sequence from the initial state
the running set has at most one element — and when n callers reach the
expired wait path during one freshness cycle (the handle clear at the start,
no completion in between) exactly one refresh identity is allocated and all
n callers await that same refresh, hence share its result; callers arriving
while a refresh is already in flight all await it and allocate nothing. -/
theorem claim_C3_theorem (evs : List FlightEvent) (st stB : FlightState)
    (r n : Nat) (hn : 1 ≤ n) (hfree : st.inFlight = none)
    (hbusy : stB.inFlight = some r) :
    ((flightRun flightInit evs).1).running.length ≤ 1 ∧
    (flightRun st (List.replicate n .getExpired)).2 =
      List.replicate n (some st.nextId) ∧
    ((flightRun st (List.replicate n .getExpired)).1).nextId = st.nextId + 1 ∧
    (flightRun stB (List.replicate n .getExpired)).2 = List.replicate n (some r) ∧
    ((flightRun stB (List.replicate n .getExpired)).1).nextId = stB.nextId := by
  obtain ⟨m, rfl⟩ : ∃ m, n = m + 1 := ⟨n - 1, by omega⟩
  have hstep : flightStep st FlightEvent.getExpired =
      ({ inFlight := some st.nextId, running := st.nextId :: st.running,
         nextId := st.nextId + 1 }, some st.nextId) := by
    simp [flightStep, hfree]
  have hrest := flightRun_joined_some m
    { inFlight := some st.nextId, running := st.nextId :: st.running,
      nextId := st.nextId + 1 } st.nextId rfl
  refine ⟨?_, ?_, ?_, ?_, ?_⟩
  · have h1 := flightRun_inv evs flightInit rfl
    rw [flightInv] at h1
    rw [h1]
    cases ((flightRun flightInit evs).1).inFlight <;> simp
  · simp [List.replicate_succ, flightRun, hstep, hrest]
  · simp [List.replicate_succ, flightRun, hstep, hrest]
  · rw [flightRun_joined_some (m + 1) stB r hbusy]
  · rw [flightRun_joined_some (m + 1) stB r hbusy]

/-- Witness for C3: three concurrent expired callers from an idle cache all
await the single refresh with identity 0 and only one identity is allocated;
three callers against an already in-flight refresh also share it. -/
theorem claim_C3_witness :
    ((flightRun flightInit
        [FlightEvent.getExpired, FlightEvent.getExpired, FlightEvent.complete]).1).running.length ≤ 1 ∧
    (flightRun flightInit (List.replicate 3 .getExpired)).2 =
      List.replicate 3 (some flightInit.nextId) ∧
    ((flightRun flightInit (List.replicate 3 .getExpired)).1).nextId =
      flightInit.nextId + 1 ∧
    (flightRun cxBusyState (List.replicate 3 .getExpired)).2 =
      List.replicate 3 (some 0) ∧
    ((flightRun cxBusyState (List.replicate 3 .getExpired)).1).nextId =
      cxBusyState.nextId :=
  claim_C3_theorem [.getExpired, .getExpired, .complete] flightInit cxBusyState 0 3
    (by decide) rfl rfl
